import Mathlib

/-!
Shallow embedding of `src/utils.py` (TerrainRecognitionUsingTimeSeriesData).

Timestamps and feature values are modelled as rationals (`ℚ`); Python lists
become Lean lists; Python `IndexError` and the sklearn length-mismatch
`ValueError` (named `ConfigurationError` by the spec's taxonomy) become an
explicit error type threaded through `Except`.
-/

/-- Tolerance constant `FLOAT_ERROR = 1.0e-8` (src/utils.py line 14) used by
the timestamp match. -/
def FLOAT_ERROR : ℚ := 1 / 100000000

/-- Errors that the embedded code can raise.  `indexError` is Python's
`IndexError` from an out-of-range list subscript; `configurationError` is the
spec's name for the error sklearn raises on arrays of inconsistent lengths. -/
inductive PyError where
  | indexError
  | configurationError
deriving DecidableEq

deriving instance DecidableEq for Except

/-- Python's builtin `abs` on a rational. -/
def pyAbs (q : ℚ) : ℚ := if q < 0 then -q else q

/-- Python's builtin `max` on two integers. -/
def pyMax (a b : Int) : Int := if a ≤ b then b else a

/-- Python list subscription `xs[i]`: a non-negative index counts from the
front, a negative index `i` with `-len ≤ i` wraps to `len + i`, and anything
else raises `IndexError` (modelled as `none`). -/
def pyIndex (xs : List α) (i : Int) : Option α :=
  if 0 ≤ i then xs.get? i.toNat
  else if 0 ≤ i + xs.length then xs.get? (i + xs.length).toNat
  else none

/-- Window specification `SamplingRate` (src/utils.py lines 54-60).
`intervals` are the time offsets (spec: `offsets`), `x_start` the initial
search position (spec: `start_index`), `window_skip` the advance after a
matched offset (spec: `index_skip`), `step_size` the per-label stride
(spec: `stride`). -/
structure SamplingRate where
  intervals : List ℚ
  x_start : Int
  window_skip : Int
  step_size : Int
deriving DecidableEq

/-- Window width `window_size = len(intervals)` (src/utils.py line 60),
the spec's W. -/
def SamplingRate.window_size (sd : SamplingRate) : Nat := sd.intervals.length

/-- One iteration of the delta loop (src/utils.py lines 107-113), at search
position `window_index`.  Faithful to the source order: the subscript
`feature_times[window_index]` on line 108 is evaluated BEFORE the bounds
guard `window_index < len(feature_times)` on line 109, so an out-of-range
position raises `IndexError` rather than reaching the zero-fill branch.
Returns the produced window position together with the next search position. -/
def windowStep (features : List (List ℚ)) (feature_times : List ℚ)
    (window_skip : Int) (y_time delta : ℚ) (window_index : Int) :
    Except PyError (List ℚ × Int) :=
  match pyIndex feature_times window_index with
  | none => .error .indexError
  | some x_time =>
    if window_index < (feature_times.length : Int) ∧
        pyAbs (y_time + delta - x_time) ≤ FLOAT_ERROR then
      match pyIndex features window_index with
      | none => .error .indexError
      | some row => .ok (row, window_index + window_skip)
    else
      match features.head? with
      | none => .error .indexError
      | some r0 => .ok (List.replicate r0.length 0, window_index)

/-- The delta loop (src/utils.py lines 105-113): fold `windowStep` over the
remaining `intervals`, starting from search position `window_index`. -/
def buildWindowAux (features : List (List ℚ)) (feature_times : List ℚ)
    (window_skip : Int) (y_time : ℚ) :
    List ℚ → Int → Except PyError (List (List ℚ))
  | [], _ => .ok []
  | delta :: deltas, window_index =>
    match windowStep features feature_times window_skip y_time delta window_index with
    | .error e => .error e
    | .ok (sample, window_index') =>
      match buildWindowAux features feature_times window_skip y_time deltas window_index' with
      | .error e => .error e
      | .ok samples => .ok (sample :: samples)

/-- The window built for one label (src/utils.py lines 104-113): the search
starts at `max(x_index, 0)` (line 106) and walks `sd.intervals`. -/
def buildWindow (features : List (List ℚ)) (feature_times : List ℚ)
    (sd : SamplingRate) (x_index : Int) (y_time : ℚ) :
    Except PyError (List (List ℚ)) :=
  buildWindowAux features feature_times sd.window_skip y_time sd.intervals (pyMax x_index 0)

/-- The label loop of one file group (src/utils.py lines 103-115), with the
running base position `x_index`; after each label `x_index += step_size`
(line 114), regardless of the match/miss pattern inside the window. -/
def alignGroupAux (features : List (List ℚ)) (feature_times : List ℚ)
    (sd : SamplingRate) :
    List ℚ → Int → Except PyError (List (List (List ℚ)))
  | [], _ => .ok []
  | y_time :: ys, x_index =>
    match buildWindow features feature_times sd x_index y_time with
    | .error e => .error e
    | .ok w =>
      match alignGroupAux features feature_times sd ys (x_index + sd.step_size) with
      | .error e => .error e
      | .ok ws => .ok (w :: ws)

/-- Windowed alignment of one file group (src/utils.py lines 102-115):
the base position starts at `sd.x_start` (line 102). -/
def alignGroup (features : List (List ℚ)) (feature_times : List ℚ)
    (label_times : List ℚ) (sd : SamplingRate) :
    Except PyError (List (List (List ℚ))) :=
  alignGroupAux features feature_times sd label_times sd.x_start

/-- One file group, i.e. the four files of a prefix (x.csv, y.csv,
x_time.csv, y_time.csv) after `read_csv_file`: the feature rows, the label
strings, and the two parallel timestamp columns. -/
structure FileGroup where
  features : List (List ℚ)
  labels : List String
  feature_times : List ℚ
  label_times : List ℚ
deriving DecidableEq

/-- The file loop of `DataStreamer.initialize` (src/utils.py lines 92-115):
per group set `n_features = len(features[0])` (line 94, raising `IndexError`
on an empty feature file and OVERWRITING the previous group's value), append
the group's labels when label files are present (lines 95-96), accumulate
`n_samples` (line 101), and append the group's aligned windows.  Returns
`(features, labels, n_features, n_samples)`. -/
def loadGroups (hasLabels : Bool) (sd : SamplingRate) :
    List FileGroup →
    Except PyError (List (List (List ℚ)) × List String × Option Nat × Nat)
  | [] => .ok ([], [], none, 0)
  | g :: gs =>
    match g.features.head? with
    | none => .error .indexError
    | some r0 =>
      match alignGroup g.features g.feature_times g.label_times sd with
      | .error e => .error e
      | .ok ws =>
        match loadGroups hasLabels sd gs with
        | .error e => .error e
        | .ok (wsRest, lsRest, nfRest, nRest) =>
          .ok (ws ++ wsRest, (if hasLabels then g.labels else []) ++ lsRest,
            some (nfRest.getD r0.length), g.label_times.length + nRest)

/-- Modelled from the spec: `sklearn.utils.shuffle(features)` (the library is
not part of this repository) permutes a single array; the random permutation
the library draws is the explicit parameter `perm`, a reordering of the index
range. -/
def featureShuffle (perm : List ℕ) (xs : List α) : List α :=
  perm.filterMap (fun i => xs.get? i)

/-- Modelled from the spec: `sklearn.utils.shuffle(features, labels)` applies
ONE permutation `perm` jointly to both arrays, and rejects arrays of
inconsistent lengths — the spec's taxonomy names that failure
`ConfigurationError`. -/
def jointShuffle (perm : List ℕ) (xs : List α) (ys : List β) :
    Except PyError (List α × List β) :=
  if xs.length = ys.length then
    .ok (perm.filterMap (fun i => xs.get? i), perm.filterMap (fun i => ys.get? i))
  else .error .configurationError

/-- The shuffle step of `DataStreamer.initialize` (src/utils.py lines
119-123): when shuffling, a non-empty label array is permuted jointly with
the features, and a labels-less dataset permutes the features alone. -/
def shuffleStep (do_shuffle : Bool) (perm : List ℕ)
    (features : List (List (List ℚ))) (labels : List String) :
    Except PyError (List (List (List ℚ)) × List String) :=
  if do_shuffle then
    if labels ≠ [] then jointShuffle perm features labels
    else .ok (featureShuffle perm features, labels)
  else .ok (features, labels)

/-- The class-balancer step of `DataStreamer.initialize` (src/utils.py lines
124-125): the external pluggable collaborator `balance(features, labels)` is
invoked only when labels are present and a balancer was supplied. -/
def balanceStep
    (balancer : Option (List (List (List ℚ)) → List String →
      List (List (List ℚ)) × List String))
    (features : List (List (List ℚ))) (labels : List String) :
    List (List (List ℚ)) × List String :=
  match balancer with
  | some b => if labels ≠ [] then b features labels else (features, labels)
  | none => (features, labels)

/-- The `DataStreamer` fields the claims observe, as left by a successful
`initialize`.  `labels` is an `Option` to keep the Python distinction between
`None` (src/utils.py line 72, before initialization) and a present — possibly
empty — label list: `initialize` always assigns a list (line 90). -/
structure DataStreamer where
  features : List (List (List ℚ))
  labels : Option (List String)
  n_features : Option Nat
  n_samples : Nat
  index : Nat
  batch_size : Nat
deriving DecidableEq

/-- The method `DataStreamer.initialize` (src/utils.py lines 87-131): load
and align all file groups, then shuffle (optionally), then balance
(optionally), then reset the cursor `index = 0` (line 126).  The
label-statistics step (lines 127-131) touches no field a claim observes and
is not modelled. -/
def initializeStreamer (groups : List FileGroup) (hasLabels : Bool)
    (sd : SamplingRate) (do_shuffle : Bool) (perm : List ℕ)
    (balancer : Option (List (List (List ℚ)) → List String →
      List (List (List ℚ)) × List String))
    (batch_size : Nat) : Except PyError DataStreamer :=
  match loadGroups hasLabels sd groups with
  | .error e => .error e
  | .ok (ws, ls, nf, nsamp) =>
    match shuffleStep do_shuffle perm ws ls with
    | .error e => .error e
    | .ok (ws', ls') =>
      let p := balanceStep balancer ws' ls'
      .ok { features := p.1, labels := some p.2, n_features := nf,
            n_samples := nsamp, index := 0, batch_size := batch_size }

/-- The method `DataStreamer.next` (src/utils.py lines 133-137): the Python
slices `features[index : index + batch_size]` and
`labels[index : index + batch_size]` (for the non-negative cursor and batch
size the streamer maintains) are `take batch_size` of `drop index`; the label
slice is taken exactly when `labels is not None` (line 135), and the cursor
advances by `batch_size` (line 136) with no bounds check.  Returns both
batches and the advanced streamer. -/
def DataStreamer.next (s : DataStreamer) :
    List (List (List ℚ)) × Option (List String) × DataStreamer :=
  ((s.features.drop s.index).take s.batch_size,
   s.labels.map (fun ls => (ls.drop s.index).take s.batch_size),
   { s with index := s.index + s.batch_size })

/-- Evaluation helper: `Int.toNat` of a numeral literal. -/
theorem int_toNat_lit (n : ℕ) : (no_index (OfNat.ofNat n) : ℤ).toNat = OfNat.ofNat n := rfl

/-- Helper: any element produced by a Python subscript belongs to the list. -/
theorem pyIndex_mem {xs : List α} {i : ℤ} {a : α} (h : pyIndex xs i = some a) : a ∈ xs := by
  unfold pyIndex at h
  split at h
  · exact List.get?_mem h
  · split at h
    · exact List.get?_mem h
    · exact absurd h (by simp)

/-- Helper: the head given by `head?` belongs to the list. -/
theorem head?_mem {xs : List α} {a : α} (h : xs.head? = some a) : a ∈ xs := by
  cases xs with
  | nil => simp at h
  | cons b bs =>
    simp only [List.head?_cons, Option.some.injEq] at h
    exact h ▸ List.mem_cons_self b bs

/-- Helper: the window built for label number `i` of a group starts from base
position `x + i * step_size`, where `x` is the base position of the first
remaining label. -/
theorem alignGroupAux_get (features : List (List ℚ)) (ftimes : List ℚ) (sd : SamplingRate) :
    ∀ (ys : List ℚ) (x : ℤ) (ws : List (List (List ℚ))),
      alignGroupAux features ftimes sd ys x = .ok ws →
      ∀ i : ℕ, i < ys.length →
      ∃ t w, ys.get? i = some t ∧ ws.get? i = some w ∧
        buildWindow features ftimes sd (x + (i : ℤ) * sd.step_size) t = .ok w := by
  intro ys
  induction ys with
  | nil => intro x ws h i hi; simp at hi
  | cons y ys ih =>
    intro x ws h i hi
    rw [alignGroupAux] at h
    cases hb : buildWindow features ftimes sd x y with
    | error e => rw [hb] at h; simp at h
    | ok w0 =>
      rw [hb] at h
      cases hr : alignGroupAux features ftimes sd ys (x + sd.step_size) with
      | error e => rw [hr] at h; simp at h
      | ok ws' =>
        rw [hr] at h
        simp only [Except.ok.injEq] at h
        subst h
        cases i with
        | zero => exact ⟨y, w0, rfl, rfl, by simpa using hb⟩
        | succ j =>
          have hj : j < ys.length := by simpa using hi
          obtain ⟨t, w, h1, h2, h3⟩ := ih (x + sd.step_size) ws' hr j hj
          refine ⟨t, w, by simpa using h1, by simpa using h2, ?_⟩
          have harith : x + sd.step_size + (j : ℤ) * sd.step_size =
              x + ((j + 1 : ℕ) : ℤ) * sd.step_size := by push_cast; ring
          rw [← harith]
          exact h3

/-- Helper: the file loop processes a concatenation of group lists as the
concatenation of the two runs — each group restarts from `sd.x_start`, so no
state except the accumulated output crosses a group boundary. -/
theorem loadGroups_append (hasLabels : Bool) (sd : SamplingRate) :
    ∀ (gs₁ gs₂ : List FileGroup) w₁ l₁ nf₁ n₁ w₂ l₂ nf₂ n₂,
      loadGroups hasLabels sd gs₁ = .ok (w₁, l₁, nf₁, n₁) →
      loadGroups hasLabels sd gs₂ = .ok (w₂, l₂, nf₂, n₂) →
      ∃ nf, loadGroups hasLabels sd (gs₁ ++ gs₂) =
        .ok (w₁ ++ w₂, l₁ ++ l₂, nf, n₁ + n₂) := by
  intro gs₁
  induction gs₁ with
  | nil =>
    intro gs₂ w₁ l₁ nf₁ n₁ w₂ l₂ nf₂ n₂ h₁ h₂
    rw [loadGroups] at h₁
    simp only [Except.ok.injEq, Prod.mk.injEq] at h₁
    obtain ⟨hw, hl, _, hn⟩ := h₁
    subst hw; subst hl; subst hn
    simpa using ⟨nf₂, h₂⟩
  | cons g gs ih =>
    intro gs₂ w₁ l₁ nf₁ n₁ w₂ l₂ nf₂ n₂ h₁ h₂
    rw [loadGroups] at h₁
    cases hh : g.features.head? with
    | none => rw [hh] at h₁; simp at h₁
    | some r0 =>
      rw [hh] at h₁
      cases ha : alignGroup g.features g.feature_times g.label_times sd with
      | error e => rw [ha] at h₁; simp at h₁
      | ok ws =>
        rw [ha] at h₁
        cases hr : loadGroups hasLabels sd gs with
        | error e => rw [hr] at h₁; simp at h₁
        | ok acc =>
          obtain ⟨wr, lr, nfr, nr⟩ := acc
          rw [hr] at h₁
          simp only [Except.ok.injEq, Prod.mk.injEq] at h₁
          obtain ⟨hw, hl, _, hn⟩ := h₁
          obtain ⟨nf, hcat⟩ := ih gs₂ wr lr nfr nr w₂ l₂ nf₂ n₂ hr h₂
          refine ⟨some (nf.getD r0.length), ?_⟩
          rw [List.cons_append, loadGroups, hh, ha, hcat]
          simp [← hw, ← hl, ← hn, List.append_assoc, Nat.add_assoc]

/-- C1: the claim predicts that a search position that is not a valid index
leads to a zero-filled window position with the search position unchanged.
The code instead raises `IndexError`: at the input below the first offset
matches at index 0 and advances the search to 1, and the second offset's
subscript `feature_times[1]` (src/utils.py line 108, evaluated before the
bounds guard of line 109) is out of range, so the delta loop fails instead of
zero-filling. -/
theorem C1_out_of_range_subscript_raises :
    buildWindow [[5]] [0] ⟨[0, 1], 0, 1, 1⟩ 0 0 = .error .indexError := by
  norm_num [buildWindow, buildWindowAux, windowStep, pyIndex, pyMax, pyAbs,
    FLOAT_ERROR, int_toNat_lit]

/-- C2: the claim says an out-of-range search position is never a failure of
initialize.  At the input below (`start_index = 5` beyond the single feature
row) the very first offset's subscript is out of range and the whole
initialization raises `IndexError` instead of zero-filling the window. -/
theorem C2_out_of_range_fails_initialization :
    initializeStreamer [⟨[[1]], [], [0], [0]⟩] false ⟨[0], 5, 1, 1⟩ false [] none 1 =
      .error .indexError := by
  decide

/-- C3, counterexample: with feature timestamps 0..5, rows [i], one label at
time 3, offsets [-2,-1,0], start_index 0, index_skip 1, stride 1, the window
is NOT [[1],[2],[3]]: the search starts at index 0 (time 0), never matches
the targets 1, 2, 3, and never advances, because the search position only
advances on a match. -/
theorem C3_counterexample :
    alignGroup [[0], [1], [2], [3], [4], [5]] [0, 1, 2, 3, 4, 5] [3]
      ⟨[-2, -1, 0], 0, 1, 1⟩ ≠ .ok [[[1], [2], [3]]] := by
  norm_num [alignGroup, alignGroupAux, buildWindow, buildWindowAux, windowStep,
    pyIndex, pyMax, pyAbs, FLOAT_ERROR, int_toNat_lit]

/-- C3, amended: at the same input the produced window is the all-zero window
[[0],[0],[0]] — every offset misses because the search stays at index 0,
whose timestamp 0 is more than 1e-8 away from each target. -/
theorem C3_all_zero_window :
    alignGroup [[0], [1], [2], [3], [4], [5]] [0, 1, 2, 3, 4, 5] [3]
      ⟨[-2, -1, 0], 0, 1, 1⟩ = .ok [[[0], [0], [0]]] := by
  norm_num [alignGroup, alignGroupAux, buildWindow, buildWindowAux, windowStep,
    pyIndex, pyMax, pyAbs, FLOAT_ERROR, int_toNat_lit]

/-- C4: (1) the window for label number `i` of a group is built from base
search position `start_index + i * stride`, independent of the match/miss
pattern of earlier windows; (2) loading a concatenation of file-group lists
concatenates the windows and labels of the two separate runs, i.e. the base
position resets to `start_index` at the start of each group. -/
theorem C4_base_stride_and_group_reset :
    (∀ (features : List (List ℚ)) (ftimes ys : List ℚ) (sd : SamplingRate)
        (ws : List (List (List ℚ))) (i : ℕ),
      alignGroup features ftimes ys sd = .ok ws → i < ys.length →
      ∃ t w, ys.get? i = some t ∧ ws.get? i = some w ∧
        buildWindow features ftimes sd (sd.x_start + (i : ℤ) * sd.step_size) t = .ok w) ∧
    (∀ (hasLabels : Bool) (sd : SamplingRate) (gs₁ gs₂ : List FileGroup)
        w₁ l₁ nf₁ n₁ w₂ l₂ nf₂ n₂,
      loadGroups hasLabels sd gs₁ = .ok (w₁, l₁, nf₁, n₁) →
      loadGroups hasLabels sd gs₂ = .ok (w₂, l₂, nf₂, n₂) →
      ∃ nf, loadGroups hasLabels sd (gs₁ ++ gs₂) =
        .ok (w₁ ++ w₂, l₁ ++ l₂, nf, n₁ + n₂)) := by
  constructor
  · intro features ftimes ys sd ws i h hi
    exact alignGroupAux_get features ftimes sd ys sd.x_start ws h i hi
  · intro hasLabels sd gs₁ gs₂ w₁ l₁ nf₁ n₁ w₂ l₂ nf₂ n₂ h₁ h₂
    exact loadGroups_append hasLabels sd gs₁ gs₂ w₁ l₁ nf₁ n₁ w₂ l₂ nf₂ n₂ h₁ h₂

/-- Witness for C4 at concrete inputs. -/
theorem C4_witness :
    (∃ t w, ([(0 : ℚ)].get? 0 = some t) ∧ ([[[(1 : ℚ)]]].get? 0 = some w) ∧
      buildWindow [[1]] [0] ⟨[0], 0, 1, 1⟩
        ((⟨[0], 0, 1, 1⟩ : SamplingRate).x_start +
          ((0 : ℕ) : ℤ) * (⟨[0], 0, 1, 1⟩ : SamplingRate).step_size) t = .ok w) ∧
    (∃ nf, loadGroups true ⟨[0], 0, 1, 1⟩
        ([⟨[[1]], ["A"], [0], []⟩] ++ [⟨[[1]], ["A"], [0], []⟩]) =
      .ok (([] : List (List (List ℚ))) ++ [], ["A"] ++ ["A"], nf, 0 + 0)) := by
  constructor
  · exact C4_base_stride_and_group_reset.1 [[1]] [0] [0] ⟨[0], 0, 1, 1⟩ [[[1]]] 0
      (by norm_num [alignGroup, alignGroupAux, buildWindow, buildWindowAux, windowStep,
        pyIndex, pyMax, pyAbs, FLOAT_ERROR, int_toNat_lit]) (by decide)
  · exact C4_base_stride_and_group_reset.2 true ⟨[0], 0, 1, 1⟩
      [⟨[[1]], ["A"], [0], []⟩] [⟨[[1]], ["A"], [0], []⟩]
      [] ["A"] (some 1) 0 [] ["A"] (some 1) 0 (by decide) (by decide)

/-- Helper: one delta-loop step yields a vector of the common row width. -/
theorem windowStep_shape {features : List (List ℚ)} {ftimes : List ℚ} {skip : ℤ}
    {yt d : ℚ} {wi wi' : ℤ} {v : List ℚ} {n : ℕ}
    (hn : ∀ r ∈ features, r.length = n)
    (h : windowStep features ftimes skip yt d wi = .ok (v, wi')) :
    v.length = n := by
  unfold windowStep at h
  cases hx : pyIndex ftimes wi with
  | none => simp [hx] at h
  | some xt =>
    simp only [hx] at h
    split at h
    · cases hrow : pyIndex features wi with
      | none => simp [hrow] at h
      | some row =>
        simp only [hrow, Except.ok.injEq, Prod.mk.injEq] at h
        rw [← h.1]
        exact hn row (pyIndex_mem hrow)
    · cases hh : features.head? with
      | none => simp [hh] at h
      | some r0 =>
        simp only [hh, Except.ok.injEq, Prod.mk.injEq] at h
        rw [← h.1, List.length_replicate]
        exact hn r0 (head?_mem hh)

/-- Helper: the delta loop yields one vector per offset, all of the common
row width. -/
theorem buildWindowAux_shape {features : List (List ℚ)} {ftimes : List ℚ} {skip : ℤ}
    {yt : ℚ} {n : ℕ} (hn : ∀ r ∈ features, r.length = n) :
    ∀ (deltas : List ℚ) (wi : ℤ) (samples : List (List ℚ)),
      buildWindowAux features ftimes skip yt deltas wi = .ok samples →
      samples.length = deltas.length ∧ ∀ v ∈ samples, v.length = n := by
  intro deltas
  induction deltas with
  | nil =>
    intro wi samples h
    rw [buildWindowAux] at h
    simp only [Except.ok.injEq] at h
    subst h
    simp
  | cons d ds ih =>
    intro wi samples h
    rw [buildWindowAux] at h
    cases hs : windowStep features ftimes skip yt d wi with
    | error e => rw [hs] at h; simp at h
    | ok p =>
      obtain ⟨v, wi'⟩ := p
      simp only [hs] at h
      cases hr : buildWindowAux features ftimes skip yt ds wi' with
      | error e => rw [hr] at h; simp at h
      | ok rest =>
        rw [hr] at h
        simp only [Except.ok.injEq] at h
        subst h
        obtain ⟨hlen, hmem⟩ := ih wi' rest hr
        refine ⟨by simp [hlen], ?_⟩
        intro u hu
        rcases List.mem_cons.mp hu with hu | hu
        · exact hu ▸ windowStep_shape hn hs
        · exact hmem u hu

/-- Helper: the label loop yields one window per label, each of the declared
window width and row width. -/
theorem alignGroupAux_shape {features : List (List ℚ)} {ftimes : List ℚ}
    {sd : SamplingRate} {n : ℕ} (hn : ∀ r ∈ features, r.length = n) :
    ∀ (ys : List ℚ) (x : ℤ) (ws : List (List (List ℚ))),
      alignGroupAux features ftimes sd ys x = .ok ws →
      ws.length = ys.length ∧
      ∀ w ∈ ws, w.length = sd.intervals.length ∧ ∀ v ∈ w, v.length = n := by
  intro ys
  induction ys with
  | nil =>
    intro x ws h
    rw [alignGroupAux] at h
    simp only [Except.ok.injEq] at h
    subst h
    simp
  | cons y ys ih =>
    intro x ws h
    rw [alignGroupAux] at h
    cases hb : buildWindow features ftimes sd x y with
    | error e => rw [hb] at h; simp at h
    | ok w0 =>
      rw [hb] at h
      cases hr : alignGroupAux features ftimes sd ys (x + sd.step_size) with
      | error e => rw [hr] at h; simp at h
      | ok ws' =>
        rw [hr] at h
        simp only [Except.ok.injEq] at h
        subst h
        obtain ⟨hlen, hmem⟩ := ih (x + sd.step_size) ws' hr
        refine ⟨by simp [hlen], ?_⟩
        intro w hw
        rcases List.mem_cons.mp hw with hw | hw
        · subst hw
          obtain ⟨h1, h2⟩ := buildWindowAux_shape hn sd.intervals (pyMax x 0) w hb
          exact ⟨h1, h2⟩
        · exact hmem w hw

/-- C5: whenever the alignment of a group succeeds, its output has shape
(number of label timestamps) × (window width W) × (row width n_features),
regardless of which positions matched or were zero-filled. -/
theorem C5_align_output_shape {features : List (List ℚ)} {ftimes ys : List ℚ}
    {sd : SamplingRate} {ws : List (List (List ℚ))} {n : ℕ}
    (hn : ∀ r ∈ features, r.length = n)
    (h : alignGroup features ftimes ys sd = .ok ws) :
    ws.length = ys.length ∧
    ∀ w ∈ ws, w.length = sd.window_size ∧ ∀ v ∈ w, v.length = n :=
  alignGroupAux_shape hn ys sd.x_start ws h

/-- Witness for C5 at a concrete input with one matched and one zero-filled
window. -/
theorem C5_witness :
    (∀ r ∈ [[(7 : ℚ), 8]], r.length = 2) ∧
    ([[[(7 : ℚ), 8]], [[0, 0]]].length = [(0 : ℚ), 5].length ∧
      ∀ w ∈ [[[(7 : ℚ), 8]], [[0, 0]]],
        w.length = (⟨[0], 0, 1, 0⟩ : SamplingRate).window_size ∧
        ∀ v ∈ w, v.length = 2) := by
  refine ⟨by decide, @C5_align_output_shape [[7, 8]] [0] [0, 5] ⟨[0], 0, 1, 0⟩
    [[[7, 8]], [[0, 0]]] 2 (by decide) ?_⟩
  norm_num [alignGroup, alignGroupAux, buildWindow, buildWindowAux, windowStep,
    pyIndex, pyMax, pyAbs, FLOAT_ERROR, int_toNat_lit, List.replicate]

/-- C6: (1) the feature batch is exactly the slice of `features` starting at
the cursor; (2) its length is `batch_size` capped by the remaining data;
(3) when labels are present, `next` also returns the parallel label slice —
same start, same cap, elementwise the labels from the cursor on; (4) the
cursor advances by exactly `batch_size`, even when fewer samples remain;
(5) with batch_size 2 over 5 samples, successive calls return feature
batches of sizes 2, 2, 1, then 0, with the parallel label batches
["a","b"], ["c","d"], ["e"], then []; (6) initialization resets the cursor
to 0. -/
theorem C6_next_batch :
    (∀ (s : DataStreamer) (j : ℕ), j < s.next.1.length →
      s.next.1.get? j = s.features.get? (s.index + j)) ∧
    (∀ s : DataStreamer, s.next.1.length = min s.batch_size (s.features.length - s.index)) ∧
    (∀ (s : DataStreamer) (ls : List String), s.labels = some ls →
      ∃ lb, s.next.2.1 = some lb ∧
        lb.length = min s.batch_size (ls.length - s.index) ∧
        ∀ j : ℕ, j < lb.length → lb.get? j = ls.get? (s.index + j)) ∧
    (∀ s : DataStreamer, s.next.2.2.index = s.index + s.batch_size) ∧
    ((DataStreamer.mk [[[0]], [[1]], [[2]], [[3]], [[4]]]
        (some ["a", "b", "c", "d", "e"]) (some 1) 5 0 2).next.1.length = 2 ∧
      (DataStreamer.mk [[[0]], [[1]], [[2]], [[3]], [[4]]]
        (some ["a", "b", "c", "d", "e"]) (some 1) 5 0 2).next.2.2.next.1.length = 2 ∧
      (DataStreamer.mk [[[0]], [[1]], [[2]], [[3]], [[4]]]
        (some ["a", "b", "c", "d", "e"]) (some 1) 5 0 2).next.2.2.next.2.2.next.1.length = 1 ∧
      (DataStreamer.mk [[[0]], [[1]], [[2]], [[3]], [[4]]]
        (some ["a", "b", "c", "d", "e"]) (some 1) 5 0 2).next.2.2.next.2.2.next.2.2.next.1.length
        = 0 ∧
      (DataStreamer.mk [[[0]], [[1]], [[2]], [[3]], [[4]]]
        (some ["a", "b", "c", "d", "e"]) (some 1) 5 0 2).next.2.1 = some ["a", "b"] ∧
      (DataStreamer.mk [[[0]], [[1]], [[2]], [[3]], [[4]]]
        (some ["a", "b", "c", "d", "e"]) (some 1) 5 0 2).next.2.2.next.2.1 = some ["c", "d"] ∧
      (DataStreamer.mk [[[0]], [[1]], [[2]], [[3]], [[4]]]
        (some ["a", "b", "c", "d", "e"]) (some 1) 5 0 2).next.2.2.next.2.2.next.2.1 = some ["e"] ∧
      (DataStreamer.mk [[[0]], [[1]], [[2]], [[3]], [[4]]]
        (some ["a", "b", "c", "d", "e"]) (some 1) 5 0 2).next.2.2.next.2.2.next.2.2.next.2.1
        = some []) ∧
    (∀ (groups : List FileGroup) (hasLabels : Bool) (sd : SamplingRate) (ds : Bool)
        (perm : List ℕ) (balancer : Option (List (List (List ℚ)) → List String →
          List (List (List ℚ)) × List String)) (bs : ℕ) (s : DataStreamer),
      initializeStreamer groups hasLabels sd ds perm balancer bs = .ok s → s.index = 0) := by
  refine ⟨?_, ?_, ?_, ?_, by decide, ?_⟩
  · intro s j hj
    rw [DataStreamer.next]
    rw [DataStreamer.next] at hj
    simp only [List.length_take, List.length_drop, lt_min_iff] at hj
    rw [List.get?_take hj.1, List.get?_drop]
  · intro s
    rw [DataStreamer.next]
    simp [List.length_take, List.length_drop]
  · intro s ls hls
    refine ⟨(ls.drop s.index).take s.batch_size, ?_, ?_, ?_⟩
    · rw [DataStreamer.next, hls]
      rfl
    · simp [List.length_take, List.length_drop]
    · intro j hj
      simp only [List.length_take, List.length_drop, lt_min_iff] at hj
      rw [List.get?_take hj.1, List.get?_drop]
  · intro s
    rw [DataStreamer.next]
  · intro groups hasLabels sd ds perm balancer bs s h
    unfold initializeStreamer at h
    cases hl : loadGroups hasLabels sd groups with
    | error e => rw [hl] at h; simp at h
    | ok acc =>
      obtain ⟨ws, ls, nf, ns⟩ := acc
      simp only [hl] at h
      cases hs : shuffleStep ds perm ws ls with
      | error e => rw [hs] at h; simp at h
      | ok p =>
        simp only [hs] at h
        simp only [Except.ok.injEq] at h
        rw [← h]

/-- Witness for C6 at concrete inputs, including the parallel label slice. -/
theorem C6_witness :
    ((DataStreamer.mk [[[(0 : ℚ)]], [[1]], [[2]]] (some ["a", "b", "c"]) (some 1) 3 1 2).next.1.get? 0
      = [[[(0 : ℚ)]], [[1]], [[2]]].get? (1 + 0)) ∧
    (∃ lb, (DataStreamer.mk [[[(0 : ℚ)]], [[1]], [[2]]]
        (some ["a", "b", "c"]) (some 1) 3 1 2).next.2.1 = some lb ∧
      lb.length = min 2 (["a", "b", "c"].length - 1) ∧
      ∀ j : ℕ, j < lb.length → lb.get? j = ["a", "b", "c"].get? (1 + j)) ∧
    (DataStreamer.mk ([] : List (List (List ℚ))) (some []) (some 1) 0 0 1).index = 0 := by
  refine ⟨?_, ?_, ?_⟩
  · exact C6_next_batch.1
      (DataStreamer.mk [[[0]], [[1]], [[2]]] (some ["a", "b", "c"]) (some 1) 3 1 2) 0 (by decide)
  · exact C6_next_batch.2.2.1
      (DataStreamer.mk [[[0]], [[1]], [[2]]] (some ["a", "b", "c"]) (some 1) 3 1 2)
      ["a", "b", "c"] rfl
  · exact C6_next_batch.2.2.2.2.2 [⟨[[1]], [], [0], []⟩] false ⟨[0], 0, 1, 1⟩ false [] none 1
      (DataStreamer.mk [] (some []) (some 1) 0 0 1)
      (by decide)

/-- C7, counterexample: two file groups with row widths 1 and 2.  After
loading both, `n_features` is 2 — the width of the LAST loaded file — not
the width 1 fixed by the first loaded file, because src/utils.py line 94
re-assigns `n_features` on every file. -/
theorem C7_counterexample :
    loadGroups false ⟨[0], 0, 1, 1⟩ [⟨[[1]], [], [0], []⟩, ⟨[[2, 3]], [], [0], []⟩] =
      .ok ([], [], some 2, 0) ∧ (2 : ℕ) ≠ 1 := by decide

/-- C7, amended: after a successful load, `n_features` equals the first-row
width of the LAST loaded file group (so it equals the first file's width only
when all files share that width). -/
theorem C7_n_features_from_last_file (hasLabels : Bool) (sd : SamplingRate) :
    ∀ (gs : List FileGroup) (ws : List (List (List ℚ))) (ls : List String)
      (nf : Option ℕ) (ns : ℕ) (g : FileGroup),
      loadGroups hasLabels sd gs = .ok (ws, ls, nf, ns) → gs.getLast? = some g →
      ∃ r0, g.features.head? = some r0 ∧ nf = some r0.length := by
  intro gs
  induction gs with
  | nil => intro ws ls nf ns g h hlast; simp at hlast
  | cons g' gs ih =>
    intro ws ls nf ns g h hlast
    rw [loadGroups] at h
    cases hh : g'.features.head? with
    | none => rw [hh] at h; simp at h
    | some r0 =>
      simp only [hh] at h
      cases ha : alignGroup g'.features g'.feature_times g'.label_times sd with
      | error e => rw [ha] at h; simp at h
      | ok ws0 =>
        simp only [ha] at h
        cases gs with
        | nil =>
          rw [loadGroups] at h
          simp only [Except.ok.injEq, Prod.mk.injEq] at h
          have hg : g = g' := by
            simpa using hlast.symm
          subst hg
          exact ⟨r0, hh, by simp [← h.2.2.1]⟩
        | cons g₂ gs₂ =>
          cases hr : loadGroups hasLabels sd (g₂ :: gs₂) with
          | error e => rw [hr] at h; simp at h
          | ok acc =>
            obtain ⟨wr, lr, nfr, nr⟩ := acc
            simp only [hr, Except.ok.injEq, Prod.mk.injEq] at h
            have hlast' : (g₂ :: gs₂).getLast? = some g :=
              (@List.getLast?_cons_cons _ g' g₂ gs₂).symm.trans hlast
            obtain ⟨r0', hh', hnf'⟩ := ih wr lr nfr nr g hr hlast'
            refine ⟨r0', hh', ?_⟩
            rw [← h.2.2.1, hnf']
            simp

/-- Witness for the amended C7 at the two-group counterexample input. -/
theorem C7_witness :
    ∃ r0, ([[(2 : ℚ), 3]] : List (List ℚ)).head? = some r0 ∧
      (some 2 : Option ℕ) = some r0.length :=
  C7_n_features_from_last_file false ⟨[0], 0, 1, 1⟩
    [⟨[[1]], [], [0], []⟩, ⟨[[2, 3]], [], [0], []⟩] [] [] (some 2) 0
    ⟨[[2, 3]], [], [0], []⟩ (by decide) (by decide)

/-- Helper: indexing a zip is the pairwise indexing of the two lists. -/
theorem zip_get?_eq (xs : List α) : ∀ (ys : List β) (i : ℕ),
    (xs.zip ys).get? i = (xs.get? i).bind (fun a => (ys.get? i).map (fun b => (a, b))) := by
  induction xs with
  | nil => intro ys i; simp
  | cons x xs ih =>
    intro ys i
    cases ys with
    | nil => simp
    | cons y ys =>
      cases i with
      | zero => simp [List.zip_cons_cons]
      | succ j => simpa [List.zip_cons_cons] using ih ys j

/-- Helper: reading a list back at every index of its range reproduces it. -/
theorem filterMap_get?_range (xs : List α) :
    (List.range xs.length).filterMap (fun i => xs.get? i) = xs := by
  induction xs with
  | nil => simp
  | cons x xs ih =>
    have hcomp : ((fun i => (x :: xs).get? i) ∘ Nat.succ) = fun i => xs.get? i := by
      funext i; rfl
    rw [List.length_cons, List.range_succ_eq_map, List.filterMap_cons]
    simp only [List.get?_cons_zero, List.filterMap_map, hcomp, ih]

/-- Helper: for equal-length lists, reading the zip along an index list is
the zip of the two reads. -/
theorem filterMap_get?_zip (xs : List α) (ys : List β) (hlen : ys.length = xs.length) :
    ∀ p : List ℕ,
      p.filterMap (fun i => (xs.zip ys).get? i) =
        (p.filterMap (fun i => xs.get? i)).zip (p.filterMap (fun i => ys.get? i)) := by
  intro p
  induction p with
  | nil => simp
  | cons i p ih =>
    rw [List.filterMap_cons, List.filterMap_cons, List.filterMap_cons,
      zip_get?_eq xs ys i]
    cases hx : xs.get? i with
    | none =>
      have hy : ys.get? i = none := by
        rw [List.get?_eq_none] at hx ⊢
        omega
      rw [hy]
      simp only [Option.none_bind]
      exact ih
    | some a =>
      cases hy : ys.get? i with
      | none =>
        rw [List.get?_eq_none] at hy
        have hx' : xs.get? i = none := List.get?_eq_none.mpr (hlen ▸ hy)
        rw [hx'] at hx
        exact Option.noConfusion hx
      | some b =>
        simp only [Option.some_bind, Option.map_some']
        rw [List.zip_cons_cons, ih]

/-- C8: for any permutation of the sample index range, (1) the joint shuffle
of a labelled dataset keeps the multiset of (feature window, label) pairs —
the zipped pairs after shuffling are a permutation of the pairs before —
and (2) with no labels the features alone are permuted. -/
theorem C8_shuffle_preserves_pairing (perm : List ℕ) (features : List (List (List ℚ)))
    (labels : List String) (hp : perm.Perm (List.range features.length)) :
    (∀ f' l', labels.length = features.length →
      jointShuffle perm features labels = .ok (f', l') →
      (f'.zip l').Perm (features.zip labels)) ∧
    (featureShuffle perm features).Perm features := by
  constructor
  · intro f' l' hlen hj
    unfold jointShuffle at hj
    rw [if_pos hlen.symm] at hj
    simp only [Except.ok.injEq, Prod.mk.injEq] at hj
    rw [← hj.1, ← hj.2, ← filterMap_get?_zip features labels hlen perm]
    have hzlen : (features.zip labels).length = features.length := by
      rw [List.length_zip, hlen, min_self]
    have hperm := List.Perm.filterMap (fun i => (features.zip labels).get? i) hp
    rw [← hzlen, filterMap_get?_range (features.zip labels)] at hperm
    exact hperm
  · have hperm := List.Perm.filterMap (fun i => features.get? i) hp
    rw [filterMap_get?_range features] at hperm
    exact hperm

/-- Witness for C8 with the transposition of two samples. -/
theorem C8_witness :
    (([[[(2 : ℚ)]], [[1]]].zip ["b", "a"]).Perm ([[[(1 : ℚ)]], [[2]]].zip ["a", "b"])) ∧
    (featureShuffle [1, 0] [[[(1 : ℚ)]], [[2]]]).Perm [[[(1 : ℚ)]], [[2]]] := by
  constructor
  · exact (C8_shuffle_preserves_pairing [1, 0] [[[1]], [[2]]] ["a", "b"] (by decide)).1
      [[[2]], [[1]]] ["b", "a"] (by decide) (by decide)
  · exact (C8_shuffle_preserves_pairing [1, 0] [[[1]], [[2]]] ["a", "b"] (by decide)).2

/-- C9, counterexample: one window and an empty label array (label files
absent while label-time files are present), shuffle requested.  The label
length 0 differs from the feature count 1, yet initialization succeeds —
the code shuffles the features alone whenever the label array is empty, so
no ConfigurationError is raised. -/
theorem C9_counterexample :
    initializeStreamer [⟨[[1]], [], [0], [0]⟩] false ⟨[0], 0, 1, 1⟩ true [0] none 1 =
      .ok (DataStreamer.mk [[[1]]] (some []) (some 1) 1 0 1) := by
  norm_num [initializeStreamer, loadGroups, shuffleStep, featureShuffle, balanceStep,
    alignGroup, alignGroupAux, buildWindow, buildWindowAux, windowStep,
    pyIndex, pyMax, pyAbs, FLOAT_ERROR, int_toNat_lit,
    List.filterMap_cons, List.filterMap_nil]

/-- C9, amended: if shuffling is requested and the label array is NON-EMPTY
with length different from the number of feature windows, initialization
fails with ConfigurationError (and no other error kind). -/
theorem C9_nonempty_label_mismatch_fails (groups : List FileGroup) (hasLabels : Bool)
    (sd : SamplingRate) (perm : List ℕ)
    (balancer : Option (List (List (List ℚ)) → List String →
      List (List (List ℚ)) × List String))
    (bs : ℕ) (ws : List (List (List ℚ))) (ls : List String) (nf : Option ℕ) (ns : ℕ)
    (hload : loadGroups hasLabels sd groups = .ok (ws, ls, nf, ns))
    (hne : ls ≠ []) (hlen : ws.length ≠ ls.length) :
    initializeStreamer groups hasLabels sd true perm balancer bs =
      .error .configurationError := by
  unfold initializeStreamer
  rw [hload]
  have hshuffle : shuffleStep true perm ws ls = .error .configurationError := by
    unfold shuffleStep jointShuffle
    simp [hne, hlen]
  simp [hshuffle]

/-- Witness for the amended C9: one label, zero windows, shuffle on. -/
theorem C9_witness :
    initializeStreamer [⟨[[1]], ["A"], [0], []⟩] true ⟨[0], 0, 1, 1⟩ true [0] none 1 =
      .error .configurationError :=
  C9_nonempty_label_mismatch_fails [⟨[[1]], ["A"], [0], []⟩] true ⟨[0], 0, 1, 1⟩ [0] none 1
    [] ["A"] (some 1) 0 (by decide) (by decide) (by decide)

/-- Helper: with label files absent the file loop accumulates no labels. -/
theorem loadGroups_no_labels (sd : SamplingRate) :
    ∀ (gs : List FileGroup) (ws : List (List (List ℚ))) (ls : List String)
      (nf : Option ℕ) (ns : ℕ),
      loadGroups false sd gs = .ok (ws, ls, nf, ns) → ls = [] := by
  intro gs
  induction gs with
  | nil =>
    intro ws ls nf ns h
    rw [loadGroups] at h
    simp only [Except.ok.injEq, Prod.mk.injEq] at h
    exact h.2.1.symm
  | cons g gs ih =>
    intro ws ls nf ns h
    rw [loadGroups] at h
    cases hh : g.features.head? with
    | none => rw [hh] at h; simp at h
    | some r0 =>
      simp only [hh] at h
      cases ha : alignGroup g.features g.feature_times g.label_times sd with
      | error e => rw [ha] at h; simp at h
      | ok ws0 =>
        simp only [ha] at h
        cases hr : loadGroups false sd gs with
        | error e => rw [hr] at h; simp at h
        | ok acc =>
          obtain ⟨wr, lr, nfr, nr⟩ := acc
          simp only [hr, Except.ok.injEq, Prod.mk.injEq] at h
          have hlr : lr = [] := ih wr lr nfr nr hr
          rw [← h.2.1, hlr]
          simp

/-- C10: with no label files supplied, a successful initialization leaves
`labels` as a PRESENT empty list (not the Python `None`), so `next` returns
an empty label slice alongside the feature batch rather than returning no
labels. -/
theorem C10_no_label_files (groups : List FileGroup) (sd : SamplingRate) (ds : Bool)
    (perm : List ℕ)
    (balancer : Option (List (List (List ℚ)) → List String →
      List (List (List ℚ)) × List String))
    (bs : ℕ) (s : DataStreamer)
    (h : initializeStreamer groups false sd ds perm balancer bs = .ok s) :
    s.labels = some [] ∧ s.next.2.1 = some [] := by
  unfold initializeStreamer at h
  cases hl : loadGroups false sd groups with
  | error e => rw [hl] at h; simp at h
  | ok acc =>
    obtain ⟨ws, ls, nf, ns⟩ := acc
    simp only [hl] at h
    have hls : ls = [] := loadGroups_no_labels sd groups ws ls nf ns hl
    subst hls
    have hsh : shuffleStep ds perm ws [] = .ok (featureShuffle perm ws, []) ∨
        shuffleStep ds perm ws [] = .ok (ws, []) := by
      unfold shuffleStep
      cases ds with
      | false => right; simp
      | true => left; simp
    have hlab : s.labels = some [] := by
      rcases hsh with hsh | hsh <;>
      · rw [hsh] at h
        simp only [Except.ok.injEq] at h
        rw [← h]
        cases balancer with
        | none => rfl
        | some b => simp [balanceStep]
    refine ⟨hlab, ?_⟩
    rw [DataStreamer.next, hlab]
    simp

/-- Witness for C10 at a concrete labels-less input. -/
theorem C10_witness :
    (DataStreamer.mk ([] : List (List (List ℚ))) (some []) (some 1) 0 0 1).labels = some [] ∧
    (DataStreamer.mk ([] : List (List (List ℚ))) (some []) (some 1) 0 0 1).next.2.1 = some [] :=
  C10_no_label_files [⟨[[1]], [], [0], []⟩] ⟨[0], 0, 1, 1⟩ false [] none 1
    (DataStreamer.mk [] (some []) (some 1) 0 0 1) (by decide)
